import Mathlib

/-!
Verification of the sequenced CloudWatchLogs append writer
(`lib/cloudwatchlogs/writer.go`).

The Go source is shallowly embedded below:

* `parseInvalidSequenceTokenException` mirrors the Go function of the same
  name, including its `fmt.Println` calls, which are modelled as a list of
  printed lines returned alongside the parse result.
* The writer's `WriteMessageBatch` retry loop is `putLoop` together with
  `writeMessageBatch`.  The AWS transport (`PutLogEvents`) and the registry
  collaborator are modelled as an oracle function and an effect trace: a
  `RunOutcome` records the result, the updated writer state, the ordered
  list of transport calls, the registry removals, and the printed lines.
* Go `*string` values are `Option String`; `aws.StringValue nil` is
  `Option.getD ""`.

Go's `strings` helpers (`Split` with a one-character separator,
`HasPrefix`, `TrimSpace`) are embedded as structurally recursive functions
on `List Char`, faithful to Go's semantics on valid UTF-8 input.
-/

namespace EcsLogs

/-- Go `strings.Split(s, sep)` for a one-character separator `c`, on the
character list of the string: `split "" = [""]`, `split "a:b" = ["a","b"]`,
`split ":" = ["", ""]`. -/
def splitOnChar (c : Char) : List Char → List (List Char)
  | [] => [[]]
  | x :: xs =>
    match splitOnChar c xs with
    | [] => [[x]]
    | y :: ys => if x = c then [] :: y :: ys else (x :: y) :: ys

/-- Go `strings.HasPrefix(s, pre)` on character lists. -/
def listIsPrefixOf : List Char → List Char → Bool
  | [], _ => true
  | _ :: _, [] => false
  | x :: xs, y :: ys => x = y && listIsPrefixOf xs ys

/-- The white-space predicate used by Go `strings.TrimSpace` (ASCII part of
`unicode.IsSpace`, which is all that can occur in the messages at hand). -/
def goIsSpace (c : Char) : Bool :=
  c = ' ' || c = '\t' || c = '\n' || c = '\x0b' || c = '\x0c' || c = '\r'

/-- Go `strings.TrimSpace` on character lists: drop white space from both
ends. -/
def trimSpace (l : List Char) : List Char :=
  ((l.dropWhile goIsSpace).reverse.dropWhile goIsSpace).reverse

/-- The first line of a message: head of the `\n`-split (Go takes
`lines[0]` after `strings.Split(msg, "\n")`, which is never empty). -/
def goFirstLine (l : List Char) : List Char :=
  (splitOnChar '\n' l).headD l

/-- The fixed textual marker of a token-mismatch rejection. -/
def invalidSequenceTokenHeader : String := "InvalidSequenceTokenException:"

/-- Embedding of Go `parseInvalidSequenceTokenException` (writer.go lines
103-127).  The first component is the extracted token (`nil` pointer is
`none`); the second component is the list of lines printed by the
function's `fmt.Println` calls, in order. -/
def parseInvalidSequenceTokenException (msg : String) :
    Option String × List String :=
  let printed := ["<<< " ++ msg]
  if listIsPrefixOf invalidSequenceTokenHeader.data msg.data then
    let lines := splitOnChar '\n' msg.data
    let msg1 := if lines.length ≠ 0 then lines.headD msg.data else msg.data
    let parts := splitOnChar ':' msg1
    if parts.length < 3 then
      (none, printed ++ ["bad parts count: " ++ toString parts.length])
    else
      let s := String.mk (trimSpace (parts.getD 2 []))
      (some s, printed ++ [">>> " ++ s])
  else
    (none, printed ++ ["no prefix"])

/-- The spec's `ExtractExpectedToken`: the parse result of
`parseInvalidSequenceTokenException`, without the print effect. -/
def extractExpectedToken (msg : String) : Option String :=
  (parseInvalidSequenceTokenException msg).1

/-- The lines `parseInvalidSequenceTokenException` prints to standard
output via `fmt.Println`. -/
def parsePrintedLines (msg : String) : List String :=
  (parseInvalidSequenceTokenException msg).2

/-- The fields of `ecslogs.Message` that writer.go touches: the destination
identity (`Group`, `Stream`), the timestamp (`Time`, an opaque
`ecslogs.Timestamp` value modelled as an integer), and the remaining
payload fields, abstracted as `rest`.  Serialization of the remainder
(`Message.String()`, defined outside this file's source) is a parameter of
the operations below. -/
structure Message where
  group : String
  stream : String
  time : Int
  rest : String
deriving Repr, DecidableEq, Inhabited

/-- `cloudwatchlogs.InputLogEvent`: the serialized payload together with
the out-of-band timestamp in milliseconds. -/
structure InputLogEvent where
  message : String
  timestamp : Int
deriving Repr, DecidableEq, Inhabited

/-- `cloudwatchlogs.PutLogEventsInput`: one transport call's arguments.
`sequenceToken` is a Go `*string`: `none` is the nil pointer (absent
token). -/
structure PutLogEventsInput where
  logEvents : List InputLogEvent
  logGroupName : String
  logStreamName : String
  sequenceToken : Option String
deriving Repr, DecidableEq, Inhabited

/-- The mutable writer state (`writer` struct): identity, current token,
and whether the registry back-reference (`parent`) is still set.  The
mutex serializes `WriteMessageBatch` bodies and is not part of the
sequential state. -/
structure Writer where
  group : String
  stream : String
  token : String
  parentValid : Bool
deriving Repr, DecidableEq, Inhabited

/-- A transport response: success carries `NextSequenceToken` (a Go
`*string`, hence `Option String`); failure carries the error's message
text. -/
inductive TransportResult where
  | ok (nextToken : Option String)
  | err (msg : String)
deriving Repr, DecidableEq, Inhabited

/-- The error value `WriteMessageBatch` returns: `success` is a nil error,
`errInvalidWriter` is the package-level `errInvalidWriter` value, and
`transportError m` is the transport's error (returned verbatim, identified
by its message). -/
inductive AppendResult where
  | success
  | errInvalidWriter
  | transportError (msg : String)
deriving Repr, DecidableEq, Inhabited

/-- What one `WriteMessageBatch` call did: its return value, the writer
state it leaves behind, the ordered transport calls it made, the registry
`remove(group, stream)` calls it made, and the lines it printed. -/
structure RunOutcome where
  result : AppendResult
  writer : Writer
  calls : List PutLogEventsInput
  removes : List (String × String)
  prints : List String
deriving Repr, DecidableEq, Inhabited

/-- A transport behaviour: the response to the `attempt`-th call (attempts
are numbered from 1, as in the Go loop) with the given arguments.
Quantifying theorems over all such oracles covers every deterministic
behaviour of the collaborator. -/
def TransportOracle : Type :=
  Nat → PutLogEventsInput → TransportResult

/-- writer.go lines 39-50: build one `InputLogEvent` per record — capture
the timestamp (converted by `Milliseconds`, a parameter `ms` here since
`ecslogs.Timestamp` lives outside this source), blank `Group`, `Stream`
and `Time`, and serialize what remains. -/
def makeEvents (serialize : Message → String) (ms : Int → Int)
    (batch : List Message) : List InputLogEvent :=
  batch.map fun msg =>
    { message := serialize { msg with group := "", stream := "", time := 0 },
      timestamp := ms msg.time }

/-- writer.go lines 64-66: the local `token *string` — nil unless the
stored token is non-empty. -/
def goTokenPtr (t : String) : Option String :=
  if t.length ≠ 0 then some t else none

/-- The transport-call arguments the loop builds from its state (the
`PutLogEventsInput` literal of writer.go lines 69-74). -/
def mkInput (ev : List InputLogEvent) (w : Writer) (tok : Option String) :
    PutLogEventsInput :=
  { logEvents := ev, logGroupName := w.group, logStreamName := w.stream,
    sequenceToken := tok }

/-- The retry loop of writer.go lines 68-100, starting at the given
attempt number with the given local `token`.  Each iteration calls the
transport; on success it breaks and stores `aws.StringValue` of the
returned next token (line 99); on failure it parses the rejection and
either retries (`attempt < 3` and a token was extracted) or removes the
writer from the registry, clears `parent`, and returns the transport error
verbatim (lines 88-96). -/
def putLoop (o : TransportOracle) (w : Writer) (ev : List InputLogEvent)
    (tok : Option String) (attempt : Nat) : RunOutcome :=
  match o attempt (mkInput ev w tok) with
    | .ok next =>
      { result := .success, writer := { w with token := next.getD "" },
        calls := [mkInput ev w tok], removes := [], prints := [] }
    | .err msg =>
      if h : attempt < 3 ∧ (extractExpectedToken msg).isSome then
        { result := (putLoop o w ev (extractExpectedToken msg) (attempt + 1)).result,
          writer := (putLoop o w ev (extractExpectedToken msg) (attempt + 1)).writer,
          calls := mkInput ev w tok ::
            (putLoop o w ev (extractExpectedToken msg) (attempt + 1)).calls,
          removes := (putLoop o w ev (extractExpectedToken msg) (attempt + 1)).removes,
          prints := parsePrintedLines msg ++
            (putLoop o w ev (extractExpectedToken msg) (attempt + 1)).prints }
      else
        { result := .transportError msg,
          writer := { w with parentValid := false },
          calls := [mkInput ev w tok], removes := [(w.group, w.stream)],
          prints := parsePrintedLines msg }
termination_by 3 - attempt
decreasing_by all_goals (have h1 : attempt < 3 := h.1; omega)

/-- Embedding of `writer.WriteMessageBatch` (writer.go lines 30-101): an
empty batch is a no-op; otherwise build the events, check the registry
back-reference under the lock, take the stored token if non-empty, and run
the retry loop from attempt 1. -/
def writeMessageBatch (serialize : Message → String) (ms : Int → Int)
    (o : TransportOracle) (w : Writer) (batch : List Message) : RunOutcome :=
  if batch.length = 0 then
    { result := .success, writer := w, calls := [], removes := [], prints := [] }
  else
    let events := makeEvents serialize ms batch
    if w.parentValid = false then
      { result := .errInvalidWriter, writer := w, calls := [], removes := [],
        prints := [] }
    else
      putLoop o w events (goTokenPtr w.token) 1

/-- Embedding of `writer.WriteMessage` (writer.go lines 26-28): delegate
to `WriteMessageBatch` on the one-element batch. -/
def writeMessage (serialize : Message → String) (ms : Int → Int)
    (o : TransportOracle) (w : Writer) (msg : Message) : RunOutcome :=
  writeMessageBatch serialize ms o w [msg]

/-- A sequence of `WriteMessageBatch` calls on one writer, threading the
writer state; each round supplies its own transport behaviour and batch. -/
def runSeq (serialize : Message → String) (ms : Int → Int) (w : Writer) :
    List (TransportOracle × List Message) → List RunOutcome
  | [] => []
  | (o, b) :: rest =>
    let r := writeMessageBatch serialize ms o w b
    r :: runSeq serialize ms r.writer rest

lemma head?_getD_of_eq_some {α : Type} [Inhabited α] {l : List α} {x : α}
    (h : l.head? = some x) : l.getD 0 default = x := by
  cases l with
  | nil => simp at h
  | cons a t => simp at h; simp [h]

/-- The loop always makes at least one transport call, and the first call
carries the loop's starting token. -/
lemma putLoop_first_call (o : TransportOracle) (w : Writer)
    (ev : List InputLogEvent) (tok : Option String) (a : Nat) :
    (putLoop o w ev tok a).calls.head? = some (mkInput ev w tok) := by
  rw [putLoop.eq_def]
  cases heq : o a (mkInput ev w tok) with
  | ok next => simp
  | err msg =>
    simp only []
    by_cases hg : a < 3 ∧ (extractExpectedToken msg).isSome
    · rw [dif_pos hg]
      simp
    · rw [dif_neg hg]
      simp

/-- The loop makes at most `max 1 (4 - a)` transport calls when started at
attempt `a`; in particular at most 3 from attempt 1. -/
lemma putLoop_calls_length_le (o : TransportOracle) (w : Writer)
    (ev : List InputLogEvent) (tok : Option String) (a : Nat) :
    (putLoop o w ev tok a).calls.length ≤ max 1 (4 - a) := by
  induction tok, a using putLoop.induct o w ev with
  | case1 tok a next heq =>
    rw [putLoop.eq_def, heq]
    simp
  | case2 tok a msg heq hg ih =>
    rw [putLoop.eq_def]
    simp only [heq]
    rw [dif_pos hg]
    simp only [List.length_cons]
    have ha : a < 3 := hg.1
    omega
  | case3 tok a msg heq hg =>
    rw [putLoop.eq_def]
    simp only [heq]
    rw [dif_neg hg]
    simp

lemma getLast?_cons_of_some {α : Type} {l : List α} {x a : α}
    (h : l.getLast? = some x) : (a :: l).getLast? = some x := by
  cases l with
  | nil => simp at h
  | cons b t =>
    rw [List.getLast?_cons_cons]
    exact h

/-- If the loop returns success, the last transport call was answered with
`ok t`, the writer stored `aws.StringValue t` as its token (all other
fields unchanged), and no registry removal happened. -/
lemma putLoop_success (o : TransportOracle) (w : Writer)
    (ev : List InputLogEvent) (tok : Option String) (a : Nat)
    (hs : (putLoop o w ev tok a).result = .success) :
    ∃ t last, (putLoop o w ev tok a).calls.getLast? = some last ∧
      o (a + (putLoop o w ev tok a).calls.length - 1) last = .ok t ∧
      (putLoop o w ev tok a).writer = { w with token := t.getD "" } ∧
      (putLoop o w ev tok a).removes = [] := by
  induction tok, a using putLoop.induct o w ev with
  | case1 tok a next heq =>
    rw [putLoop.eq_def] at hs ⊢
    simp only [heq] at hs ⊢
    refine ⟨next, mkInput ev w tok, by simp, ?_, by simp, by simp⟩
    simpa using heq
  | case2 tok a msg heq hg ih =>
    rw [putLoop.eq_def] at hs ⊢
    simp only [heq] at hs ⊢
    rw [dif_pos hg] at hs ⊢
    simp only [] at hs
    obtain ⟨t, last, h1, h2, h3, h4⟩ := ih hs
    refine ⟨t, last, ?_, ?_, by simpa using h3, by simpa using h4⟩
    · simpa using getLast?_cons_of_some h1
    · simp only [List.length_cons]
      have he : a + ((putLoop o w ev (extractExpectedToken msg) (a + 1)).calls.length + 1) - 1 =
          a + 1 + (putLoop o w ev (extractExpectedToken msg) (a + 1)).calls.length - 1 := by
        omega
      rw [he]
      exact h2
  | case3 tok a msg heq hg =>
    rw [putLoop.eq_def] at hs
    simp only [heq] at hs
    rw [dif_neg hg] at hs
    simp at hs

/-- If the loop returns the transport error `m`, the last transport call
was answered with exactly that error, the writer removed itself from the
registry exactly once under its own identity, and it cleared its registry
back-reference (all other fields unchanged). -/
lemma putLoop_failure (o : TransportOracle) (w : Writer)
    (ev : List InputLogEvent) (tok : Option String) (a : Nat) (m : String)
    (hf : (putLoop o w ev tok a).result = .transportError m) :
    (putLoop o w ev tok a).removes = [(w.group, w.stream)] ∧
    (putLoop o w ev tok a).writer = { w with parentValid := false } ∧
    ∃ last, (putLoop o w ev tok a).calls.getLast? = some last ∧
      o (a + (putLoop o w ev tok a).calls.length - 1) last = .err m := by
  induction tok, a using putLoop.induct o w ev with
  | case1 tok a next heq =>
    rw [putLoop.eq_def] at hf
    simp only [heq] at hf
    simp at hf
  | case2 tok a msg heq hg ih =>
    rw [putLoop.eq_def] at hf ⊢
    simp only [heq] at hf ⊢
    rw [dif_pos hg] at hf ⊢
    simp only [] at hf
    obtain ⟨h1, h2, last, h3, h4⟩ := ih hf
    refine ⟨by simpa using h1, by simpa using h2, last, ?_, ?_⟩
    · simpa using getLast?_cons_of_some h3
    · simp only [List.length_cons]
      have he : a + ((putLoop o w ev (extractExpectedToken msg) (a + 1)).calls.length + 1) - 1 =
          a + 1 + (putLoop o w ev (extractExpectedToken msg) (a + 1)).calls.length - 1 := by
        omega
      rw [he]
      exact h4
  | case3 tok a msg heq hg =>
    rw [putLoop.eq_def] at hf ⊢
    simp only [heq] at hf ⊢
    rw [dif_neg hg] at hf ⊢
    simp only [] at hf
    have hm : msg = m := by
      cases hf
      rfl
    subst hm
    refine ⟨by simp, by simp, mkInput ev w tok, by simp, ?_⟩
    simpa using heq

/-- The loop never returns `errInvalidWriter`: that error arises only from
the pre-loop registry check. -/
lemma putLoop_not_invalid (o : TransportOracle) (w : Writer)
    (ev : List InputLogEvent) (tok : Option String) (a : Nat) :
    (putLoop o w ev tok a).result ≠ .errInvalidWriter := by
  induction tok, a using putLoop.induct o w ev with
  | case1 tok a next heq =>
    rw [putLoop.eq_def]
    simp [heq]
  | case2 tok a msg heq hg ih =>
    rw [putLoop.eq_def]
    simp only [heq]
    rw [dif_pos hg]
    simpa using ih
  | case3 tok a msg heq hg =>
    rw [putLoop.eq_def]
    simp [heq, dif_neg hg]

/-- Every call after the first happens only because the previous call was
rejected with a message from which a token was extracted while fewer than
3 attempts had been made, and that retry call passes exactly the extracted
token. -/
lemma putLoop_retry_chain (o : TransportOracle) (w : Writer)
    (ev : List InputLogEvent) (tok : Option String) (a : Nat) :
    ∀ i, i + 1 < (putLoop o w ev tok a).calls.length →
      ∃ m, o (a + i) ((putLoop o w ev tok a).calls.getD i default) = .err m ∧
        (extractExpectedToken m).isSome = true ∧ a + i < 3 ∧
        ((putLoop o w ev tok a).calls.getD (i + 1) default).sequenceToken =
          extractExpectedToken m := by
  induction tok, a using putLoop.induct o w ev with
  | case1 tok a next heq =>
    rw [putLoop.eq_def]
    simp [heq]
  | case2 tok a msg heq hg ih =>
    rw [putLoop.eq_def]
    simp only [heq]
    rw [dif_pos hg]
    intro i hi
    simp only [List.length_cons] at hi
    cases i with
    | zero =>
      refine ⟨msg, by simpa using heq, hg.2, by simpa using hg.1, ?_⟩
      have hh := putLoop_first_call o w ev (extractExpectedToken msg) (a + 1)
      have h0 : (putLoop o w ev (extractExpectedToken msg) (a + 1)).calls.getD 0 default =
          mkInput ev w (extractExpectedToken msg) := head?_getD_of_eq_some hh
      simp only [List.getD_cons_succ]
      rw [h0]
      rfl
    | succ j =>
      have hj : j + 1 < (putLoop o w ev (extractExpectedToken msg) (a + 1)).calls.length := by
        omega
      obtain ⟨m, h1, h2, h3, h4⟩ := ih j hj
      refine ⟨m, ?_, h2, by omega, ?_⟩
      · have he : a + (j + 1) = a + 1 + j := by omega
        rw [he]
        simpa using h1
      · simpa using h4
  | case3 tok a msg heq hg =>
    rw [putLoop.eq_def]
    simp [heq, dif_neg hg]

/-- For a non-empty batch on a live writer, `WriteMessageBatch` is the
retry loop started at attempt 1 with the stored token. -/
lemma writeMessageBatch_run (serialize : Message → String) (ms : Int → Int)
    (o : TransportOracle) (w : Writer) (batch : List Message)
    (hb : batch.length ≠ 0) (hv : w.parentValid = true) :
    writeMessageBatch serialize ms o w batch =
      putLoop o w (makeEvents serialize ms batch) (goTokenPtr w.token) 1 := by
  simp [writeMessageBatch, hb, hv]

lemma splitOnChar_ne_nil (c : Char) (l : List Char) : splitOnChar c l ≠ [] := by
  cases l with
  | nil => simp [splitOnChar]
  | cons x xs =>
    rw [splitOnChar.eq_def]
    cases h : splitOnChar c xs with
    | nil => simp [h]
    | cons y ys =>
      simp only [h]
      by_cases hx : x = c
      · simp [hx]
      · simp [hx]

/-- Closed form of the extraction: the parse result as a function of the
prefix test and the colon-split of the first line. -/
lemma extract_eq (msg : String) :
    extractExpectedToken msg =
      if listIsPrefixOf invalidSequenceTokenHeader.data msg.data then
        if (splitOnChar ':' (goFirstLine msg.data)).length < 3 then none
        else some (String.mk (trimSpace
          ((splitOnChar ':' (goFirstLine msg.data)).getD 2 [])))
      else none := by
  unfold extractExpectedToken parseInvalidSequenceTokenException goFirstLine
  by_cases hp : listIsPrefixOf invalidSequenceTokenHeader.data msg.data
  · rw [if_pos hp, if_pos hp]
    simp only []
    have hlen : (splitOnChar '\n' msg.data).length ≠ 0 := by
      simpa [List.length_eq_zero] using splitOnChar_ne_nil '\n' msg.data
    rw [if_pos hlen]
    by_cases h3 : (splitOnChar ':' ((splitOnChar '\n' msg.data).headD msg.data)).length < 3
    · rw [if_pos h3, if_pos h3]
    · rw [if_neg h3, if_neg h3]
  · rw [if_neg hp, if_neg hp]

/-- If every transport call is rejected with a message from which a token
can be extracted, the loop started at attempt `a ≤ 3` uses up all its
remaining attempts and ends in a transport error. -/
lemma putLoop_all_fail (o : TransportOracle) (w : Writer)
    (ev : List InputLogEvent)
    (hall : ∀ k inp, ∃ m, o k inp = .err m ∧ (extractExpectedToken m).isSome = true)
    (tok : Option String) (a : Nat) (ha : a ≤ 3) :
    (putLoop o w ev tok a).calls.length = 4 - a ∧
    ∃ m, (putLoop o w ev tok a).result = .transportError m := by
  induction tok, a using putLoop.induct o w ev with
  | case1 tok a next heq =>
    obtain ⟨m, hm, _⟩ := hall a (mkInput ev w tok)
    rw [heq] at hm
    cases hm
  | case2 tok a msg heq hg ih =>
    have hlt : a < 3 := hg.1
    obtain ⟨h1, h2⟩ := ih (by omega)
    rw [putLoop.eq_def]
    simp only [heq]
    rw [dif_pos hg]
    constructor
    · simp only [List.length_cons]
      omega
    · simpa using h2
  | case3 tok a msg heq hg =>
    obtain ⟨m, hm, hsome⟩ := hall a (mkInput ev w tok)
    rw [heq] at hm
    have hmm : msg = m := by
      cases hm
      rfl
    subst hmm
    have ha3 : a = 3 := by
      rcases not_and_or.mp hg with h | h
      · omega
      · exact absurd hsome h
    subst ha3
    rw [putLoop.eq_def]
    simp only [heq]
    rw [dif_neg hg]
    exact ⟨by simp, msg, by simp⟩

/-! Concrete fixtures used by the witnesses below. -/

/-- The spec's example rejection text. -/
def exampleRejectionMsg : String :=
  "InvalidSequenceTokenException: fooError: expected sequence token is: ABC123"

/-- What the code actually extracts from `exampleRejectionMsg`: the trimmed
third colon-delimited field of its first line. -/
def exampleExtractedToken : String := "expected sequence token is"

/-- The token the spec's example claims is extracted. -/
def claimedExampleToken : String := "ABC123"

/-- A rejection message without the fixed marker (well-formed but
unrelated error text, with enough colons to have 3 fields). -/
def noPrefixMsg : String :=
  "AccessDeniedException: expected sequence token is: XYZ123"

/-- A multi-line token-mismatch message whose first line has only 2
colon-delimited fields (the later lines have more). -/
def twoPartsMsg : String :=
  "InvalidSequenceTokenException: missing second delimiter\nstatus code: 400: extra"

/-- A transport error that is not a token mismatch. -/
def demoBadMsg : String := "AccessDeniedException: not authorized"

def demoToken1 : String := "49590000000001"

def demoSerialize : Message → String := fun m => m.rest

def demoMs : Int → Int := fun t => t

def demoMsg : Message := { group := "g", stream := "s", time := 5, rest := "hello" }

def demoBatch : List Message := [demoMsg]

def demoWriter : Writer := { group := "g", stream := "s", token := "", parentValid := true }

def demoInvalidWriter : Writer :=
  { group := "g", stream := "s", token := "t0", parentValid := false }

def demoOracleOk : TransportOracle := fun _ _ => .ok (some demoToken1)

def demoOracleErr : TransportOracle := fun _ _ => .err demoBadMsg

def demoOracleAllRej : TransportOracle := fun _ _ => .err exampleRejectionMsg

def demoOracleRejThenOk : TransportOracle := fun k _ =>
  if k = 1 then .err exampleRejectionMsg else .ok (some demoToken1)

def demoRounds : List (TransportOracle × List Message) :=
  [(demoOracleErr, demoBatch), (demoOracleOk, demoBatch)]

/-! The claims. -/

/-- Claim C6: `ExtractExpectedToken` returns none when the message lacks
the fixed marker, or when the first line splits on the colon delimiter
into fewer than 3 parts (covering multi-line messages and unrelated error
text); otherwise it returns the third colon-delimited part of the first
line with surrounding whitespace trimmed. -/
theorem c6_parser_robustness (msg : String) :
    (listIsPrefixOf invalidSequenceTokenHeader.data msg.data = false →
      extractExpectedToken msg = none) ∧
    ((splitOnChar ':' (goFirstLine msg.data)).length < 3 →
      extractExpectedToken msg = none) ∧
    (listIsPrefixOf invalidSequenceTokenHeader.data msg.data = true →
      3 ≤ (splitOnChar ':' (goFirstLine msg.data)).length →
      extractExpectedToken msg = some (String.mk (trimSpace
        ((splitOnChar ':' (goFirstLine msg.data)).getD 2 [])))) := by
  refine ⟨?_, ?_, ?_⟩
  · intro hp
    rw [extract_eq]
    simp [hp]
  · intro h3
    rw [extract_eq]
    by_cases hp : listIsPrefixOf invalidSequenceTokenHeader.data msg.data
    · simp [hp, h3]
    · simp [hp]
  · intro hp h3
    rw [extract_eq, if_pos hp, if_neg (Nat.not_lt.mpr h3)]

/-- Witness for C6: the no-marker message and the 2-field first line both
yield none; the spec's example message yields its trimmed third field. -/
theorem c6_parser_robustness_witness :
    extractExpectedToken noPrefixMsg = none ∧
    extractExpectedToken twoPartsMsg = none ∧
    extractExpectedToken exampleRejectionMsg = some exampleExtractedToken := by
  refine ⟨(c6_parser_robustness noPrefixMsg).1 (by decide),
    (c6_parser_robustness twoPartsMsg).2.1 (by decide), ?_⟩
  have h := (c6_parser_robustness exampleRejectionMsg).2.2 (by decide) (by decide)
  rw [h]
  decide

/-- Claim C9 (refuted by the code): the extraction result is a pure
function of the message, but `parseInvalidSequenceTokenException` is not
side-effect free — it prints diagnostic lines via `fmt.Println` on every
call, so the core does perform output of its own. -/
theorem c9_parser_prints_output :
    parsePrintedLines exampleRejectionMsg =
      ["<<< " ++ exampleRejectionMsg, ">>> " ++ exampleExtractedToken] ∧
    parsePrintedLines exampleRejectionMsg ≠ [] ∧
    parsePrintedLines demoBadMsg = ["<<< " ++ demoBadMsg, "no prefix"] := by
  refine ⟨by decide, by decide, by decide⟩

/-- Claim C10: `WriteMessage m` behaves exactly like `WriteMessageBatch`
on the one-element batch `[m]`: same result, same final writer state, same
transport calls, same registry removals, same printed lines. -/
theorem c10_writeMessage_eq_batch (serialize : Message → String)
    (ms : Int → Int) (o : TransportOracle) (w : Writer) (msg : Message) :
    writeMessage serialize ms o w msg = writeMessageBatch serialize ms o w [msg] := rfl

/-- Claim C7: the event built for the i-th record carries that record's
timestamp (converted to milliseconds) out-of-band, and its payload is the
serialization of the record with group, stream (and time) blanked; the
events handed to the transport are exactly these. -/
theorem c7_event_transformation (serialize : Message → String)
    (ms : Int → Int) (batch : List Message) (i : Nat) :
    (makeEvents serialize ms batch)[i]? = (batch[i]?).map (fun m =>
      { message := serialize { m with group := "", stream := "", time := 0 },
        timestamp := ms m.time }) ∧
    (∀ (o : TransportOracle) (w : Writer), batch ≠ [] → w.parentValid = true →
      ((writeMessageBatch serialize ms o w batch).calls.head?).map
        (fun c => c.logEvents) = some (makeEvents serialize ms batch)) := by
  constructor
  · simp [makeEvents, List.getElem?_map]
  · intro o w hb hv
    have hb' : batch.length ≠ 0 := by
      simpa [List.length_eq_zero] using hb
    rw [writeMessageBatch_run serialize ms o w batch hb' hv]
    rw [putLoop_first_call]
    rfl

/-- Witness for C7 on a concrete batch, oracle and writer. -/
theorem c7_event_transformation_witness :
    (makeEvents demoSerialize demoMs demoBatch)[0]? =
      ((demoBatch[0]?).map (fun m =>
        { message := demoSerialize { m with group := "", stream := "", time := 0 },
          timestamp := demoMs m.time })) ∧
    ((writeMessageBatch demoSerialize demoMs demoOracleOk demoWriter demoBatch).calls.head?).map
      (fun c => c.logEvents) = some (makeEvents demoSerialize demoMs demoBatch) :=
  ⟨(c7_event_transformation demoSerialize demoMs demoBatch 0).1,
   (c7_event_transformation demoSerialize demoMs demoBatch 0).2 demoOracleOk demoWriter
     (by decide) (by decide)⟩

/-- Claim C4: once the writer's registry back-reference is absent, every
`Append` of a non-empty batch — across any sequence of subsequent calls
with any transport behaviours — fails immediately with `errInvalidWriter`,
makes no transport call, removes nothing, prints nothing, and leaves the
writer state (token included) unchanged. -/
theorem c4_invalidated_writer_rejects (serialize : Message → String)
    (ms : Int → Int) (w : Writer)
    (rounds : List (TransportOracle × List Message))
    (hw : w.parentValid = false)
    (hne : ∀ r ∈ rounds, r.2 ≠ ([] : List Message)) :
    ∀ out ∈ runSeq serialize ms w rounds,
      out.result = .errInvalidWriter ∧ out.calls = [] ∧ out.removes = [] ∧
      out.prints = [] ∧ out.writer = w := by
  induction rounds with
  | nil => simp [runSeq]
  | cons hd tl ih =>
    have hb : hd.2.length ≠ 0 := by
      simpa [List.length_eq_zero] using hne hd (List.mem_cons_self hd tl)
    have hsingle : writeMessageBatch serialize ms hd.1 w hd.2 =
        { result := .errInvalidWriter, writer := w, calls := [], removes := [],
          prints := [] } := by
      simp [writeMessageBatch, hb, hw]
    intro out hout
    rw [runSeq] at hout
    rw [hsingle] at hout
    simp only [List.mem_cons] at hout
    rcases hout with h | h
    · rw [h]
      exact ⟨rfl, rfl, rfl, rfl, rfl⟩
    · exact ih (fun r hr => hne r (List.mem_cons_of_mem hd hr)) out h

/-- Witness for C4: an invalidated writer run over two subsequent rounds;
the first outcome is `errInvalidWriter` with no calls and unchanged
state. -/
theorem c4_invalidated_writer_rejects_witness :
    ((runSeq demoSerialize demoMs demoInvalidWriter demoRounds).headD default).result =
        .errInvalidWriter ∧
    ((runSeq demoSerialize demoMs demoInvalidWriter demoRounds).headD default).calls = [] ∧
    ((runSeq demoSerialize demoMs demoInvalidWriter demoRounds).headD default).removes = [] ∧
    ((runSeq demoSerialize demoMs demoInvalidWriter demoRounds).headD default).prints = [] ∧
    ((runSeq demoSerialize demoMs demoInvalidWriter demoRounds).headD default).writer =
        demoInvalidWriter :=
  c4_invalidated_writer_rejects demoSerialize demoMs demoInvalidWriter demoRounds
    (by decide) (by decide) _ (by decide)

/-- Claim C3: whenever `Append` on a live writer surfaces a transport
error, the writer removed itself from the registry exactly once under its
own (group, stream) identity, cleared the registry back-reference (all
other fields unchanged), and the surfaced error is verbatim the error the
transport returned on the last attempt. -/
theorem c3_unrecoverable_invalidates (serialize : Message → String)
    (ms : Int → Int) (o : TransportOracle) (w : Writer)
    (batch : List Message) (m : String)
    (hb : batch ≠ []) (hv : w.parentValid = true)
    (hf : (writeMessageBatch serialize ms o w batch).result = .transportError m) :
    (writeMessageBatch serialize ms o w batch).removes = [(w.group, w.stream)] ∧
    (writeMessageBatch serialize ms o w batch).writer = { w with parentValid := false } ∧
    ∃ last, (writeMessageBatch serialize ms o w batch).calls.getLast? = some last ∧
      o (writeMessageBatch serialize ms o w batch).calls.length last = .err m := by
  have hb' : batch.length ≠ 0 := by
    simpa [List.length_eq_zero] using hb
  rw [writeMessageBatch_run serialize ms o w batch hb' hv] at hf ⊢
  obtain ⟨h1, h2, last, h3, h4⟩ := putLoop_failure o w _ _ 1 m hf
  refine ⟨h1, h2, last, h3, ?_⟩
  have he : 1 + (putLoop o w (makeEvents serialize ms batch)
      (goTokenPtr w.token) 1).calls.length - 1 =
      (putLoop o w (makeEvents serialize ms batch)
        (goTokenPtr w.token) 1).calls.length := by
    omega
  rw [he] at h4
  exact h4

/-- A concrete unrecoverable run: a live writer whose only transport
attempt is rejected with a non-token-mismatch error. -/
lemma demo_unrecoverable_run :
    writeMessageBatch demoSerialize demoMs demoOracleErr demoWriter demoBatch =
      { result := .transportError demoBadMsg,
        writer := { demoWriter with parentValid := false },
        calls := [mkInput (makeEvents demoSerialize demoMs demoBatch) demoWriter
          (goTokenPtr demoWriter.token)],
        removes := [(demoWriter.group, demoWriter.stream)],
        prints := parsePrintedLines demoBadMsg } := by
  rw [writeMessageBatch_run demoSerialize demoMs demoOracleErr demoWriter demoBatch
    (by decide) (by decide)]
  rw [putLoop.eq_def]
  have ho : demoOracleErr 1 (mkInput (makeEvents demoSerialize demoMs demoBatch)
      demoWriter (goTokenPtr demoWriter.token)) = .err demoBadMsg := rfl
  rw [ho]
  simp only []
  rw [dif_neg (by decide)]

/-- Witness for C3: the concrete unrecoverable run deregistered exactly
once under (g, s) and cleared the back-reference. -/
theorem c3_unrecoverable_invalidates_witness :
    (writeMessageBatch demoSerialize demoMs demoOracleErr demoWriter demoBatch).removes =
      [(demoWriter.group, demoWriter.stream)] ∧
    (writeMessageBatch demoSerialize demoMs demoOracleErr demoWriter demoBatch).writer =
      { demoWriter with parentValid := false } := by
  have h := c3_unrecoverable_invalidates demoSerialize demoMs demoOracleErr demoWriter
    demoBatch demoBadMsg (by decide) (by decide)
    (by rw [demo_unrecoverable_run])
  exact ⟨h.1, h.2.1⟩

/-- Claim C2: every `Append` makes at most 3 transport attempts, whatever
the transport does; a failed attempt is followed by another only when a
token was extracted from the rejection while fewer than 3 attempts had
been made; and when every attempt is rejected with an extractable token,
the writer makes exactly 3 attempts, surfaces the 3rd rejection verbatim
as its result, and invalidates itself. -/
theorem c2_retry_bound :
    (∀ (serialize : Message → String) (ms : Int → Int) (o : TransportOracle)
        (w : Writer) (batch : List Message),
      (writeMessageBatch serialize ms o w batch).calls.length ≤ 3) ∧
    (∀ (serialize : Message → String) (ms : Int → Int) (o : TransportOracle)
        (w : Writer) (batch : List Message) (i : Nat),
      i + 1 < (writeMessageBatch serialize ms o w batch).calls.length →
      ∃ m, o (1 + i) ((writeMessageBatch serialize ms o w batch).calls.getD i default) =
          .err m ∧
        (extractExpectedToken m).isSome = true ∧ 1 + i < 3) ∧
    (∀ (serialize : Message → String) (ms : Int → Int) (o : TransportOracle)
        (w : Writer) (batch : List Message),
      batch ≠ [] → w.parentValid = true →
      (∀ k inp, ∃ m, o k inp = .err m ∧ (extractExpectedToken m).isSome = true) →
      (writeMessageBatch serialize ms o w batch).calls.length = 3 ∧
      ∃ m, (writeMessageBatch serialize ms o w batch).result = .transportError m ∧
        (∃ last, (writeMessageBatch serialize ms o w batch).calls.getLast? = some last ∧
          o 3 last = .err m) ∧
        (writeMessageBatch serialize ms o w batch).writer.parentValid = false) := by
  refine ⟨?_, ?_, ?_⟩
  · intro serialize ms o w batch
    by_cases hb : batch.length = 0
    · simp [writeMessageBatch, hb]
    · by_cases hv : w.parentValid = true
      · rw [writeMessageBatch_run serialize ms o w batch hb hv]
        have h := putLoop_calls_length_le o w (makeEvents serialize ms batch)
          (goTokenPtr w.token) 1
        omega
      · simp only [Bool.not_eq_true] at hv
        simp [writeMessageBatch, hb, hv]
  · intro serialize ms o w batch i hi
    by_cases hb : batch.length = 0
    · rw [writeMessageBatch] at hi
      rw [if_pos hb] at hi
      simp at hi
    · by_cases hv : w.parentValid = true
      · rw [writeMessageBatch_run serialize ms o w batch hb hv] at hi ⊢
        obtain ⟨m, h1, h2, h3, _⟩ :=
          putLoop_retry_chain o w (makeEvents serialize ms batch)
            (goTokenPtr w.token) 1 i hi
        exact ⟨m, h1, h2, h3⟩
      · simp only [Bool.not_eq_true] at hv
        rw [writeMessageBatch] at hi
        rw [if_neg hb] at hi
        simp [hv] at hi
  · intro serialize ms o w batch hb hv hall
    have hb' : batch.length ≠ 0 := by
      simpa [List.length_eq_zero] using hb
    rw [writeMessageBatch_run serialize ms o w batch hb' hv]
    obtain ⟨hlen, m, hres⟩ := putLoop_all_fail o w (makeEvents serialize ms batch)
      hall (goTokenPtr w.token) 1 (by omega)
    refine ⟨hlen, m, hres, ?_, ?_⟩
    · obtain ⟨_, _, last, h3, h4⟩ := putLoop_failure o w _ _ 1 m hres
      refine ⟨last, h3, ?_⟩
      rw [hlen] at h4
      simpa using h4
    · obtain ⟨_, h2, _⟩ := putLoop_failure o w _ _ 1 m hres
      rw [h2]

/-- Witness for C2: a transport rejecting every attempt with the example
token-mismatch text gives exactly 3 calls (hence at most 3). -/
theorem c2_retry_bound_witness :
    (writeMessageBatch demoSerialize demoMs demoOracleAllRej demoWriter demoBatch).calls.length ≤ 3 ∧
    (writeMessageBatch demoSerialize demoMs demoOracleAllRej demoWriter demoBatch).calls.length = 3 ∧
    (writeMessageBatch demoSerialize demoMs demoOracleAllRej demoWriter demoBatch).writer.parentValid = false := by
  have h1 := c2_retry_bound.1 demoSerialize demoMs demoOracleAllRej demoWriter demoBatch
  have h3 := c2_retry_bound.2.2 demoSerialize demoMs demoOracleAllRej demoWriter demoBatch
    (by decide) (by decide)
    (fun k inp => ⟨exampleRejectionMsg, rfl, by decide⟩)
  obtain ⟨hlen, m, hm⟩ := h3
  exact ⟨h1, hlen, hm.2.2⟩

/-- Claim C5: across successful appends the token is threaded — the first
transport call of an `Append` carries the stored token (absent when the
stored token is empty), a successful `Append` stores `aws.StringValue` of
the next-token the transport returned on its last call, and the following
`Append`'s first transport call carries exactly that stored token (in
particular, the returned token itself whenever it is a non-empty
string). -/
theorem c5_token_continuity (serialize : Message → String) (ms : Int → Int)
    (o1 o2 : TransportOracle) (w : Writer) (b1 b2 : List Message)
    (hb1 : b1 ≠ []) (hb2 : b2 ≠ []) (hv : w.parentValid = true)
    (hs : (writeMessageBatch serialize ms o1 w b1).result = .success) :
    ((writeMessageBatch serialize ms o1 w b1).calls.head?).map
        (fun c => c.sequenceToken) = some (goTokenPtr w.token) ∧
    (w.token = "" → ((writeMessageBatch serialize ms o1 w b1).calls.head?).map
        (fun c => c.sequenceToken) = some none) ∧
    ∃ t last, (writeMessageBatch serialize ms o1 w b1).calls.getLast? = some last ∧
      o1 (writeMessageBatch serialize ms o1 w b1).calls.length last = .ok t ∧
      (writeMessageBatch serialize ms o1 w b1).writer.token = t.getD "" ∧
      ((writeMessageBatch serialize ms o2
          (writeMessageBatch serialize ms o1 w b1).writer b2).calls.head?).map
          (fun c => c.sequenceToken) = some (goTokenPtr (t.getD "")) ∧
      (∀ s2, t = some s2 → s2 ≠ "" →
        ((writeMessageBatch serialize ms o2
            (writeMessageBatch serialize ms o1 w b1).writer b2).calls.head?).map
            (fun c => c.sequenceToken) = some (some s2)) := by
  have hb1' : b1.length ≠ 0 := by
    simpa [List.length_eq_zero] using hb1
  have hb2' : b2.length ≠ 0 := by
    simpa [List.length_eq_zero] using hb2
  rw [writeMessageBatch_run serialize ms o1 w b1 hb1' hv] at hs ⊢
  obtain ⟨t, last, h1, h2, h3, h4⟩ := putLoop_success o1 w _ _ 1 hs
  have hfst : ((putLoop o1 w (makeEvents serialize ms b1)
      (goTokenPtr w.token) 1).calls.head?).map (fun c => c.sequenceToken) =
      some (goTokenPtr w.token) := by
    rw [putLoop_first_call]
    rfl
  refine ⟨hfst, ?_, t, last, h1, ?_, ?_, ?_, ?_⟩
  · intro he
    rw [hfst, he]
    rfl
  · have hlen : 1 + (putLoop o1 w (makeEvents serialize ms b1)
        (goTokenPtr w.token) 1).calls.length - 1 =
        (putLoop o1 w (makeEvents serialize ms b1)
          (goTokenPtr w.token) 1).calls.length := by
      omega
    rw [hlen] at h2
    exact h2
  · rw [h3]
  · have hv2 : (putLoop o1 w (makeEvents serialize ms b1)
        (goTokenPtr w.token) 1).writer.parentValid = true := by
      rw [h3]
      exact hv
    have htok2 : (putLoop o1 w (makeEvents serialize ms b1)
        (goTokenPtr w.token) 1).writer.token = t.getD "" := by
      rw [h3]
    rw [writeMessageBatch_run serialize ms o2 _ b2 hb2' hv2]
    rw [putLoop_first_call]
    simp [mkInput, htok2]
  · intro s2 hts hne
    have hv2 : (putLoop o1 w (makeEvents serialize ms b1)
        (goTokenPtr w.token) 1).writer.parentValid = true := by
      rw [h3]
      exact hv
    have htok2 : (putLoop o1 w (makeEvents serialize ms b1)
        (goTokenPtr w.token) 1).writer.token = t.getD "" := by
      rw [h3]
    rw [writeMessageBatch_run serialize ms o2 _ b2 hb2' hv2]
    rw [putLoop_first_call]
    have hlen2 : s2.length ≠ 0 := by
      intro h0
      apply hne
      cases s2 with
      | mk data =>
        cases data with
        | nil => rfl
        | cons c cs => simp [String.length] at h0
    have hgo : goTokenPtr (t.getD "") = some s2 := by
      rw [hts]
      simp only [Option.getD_some]
      unfold goTokenPtr
      rw [if_pos hlen2]
    simp [mkInput, htok2, hgo]

/-- A concrete successful first append: a live writer with empty token,
one transport attempt answered `ok demoToken1`. -/
lemma demo_success_run :
    writeMessageBatch demoSerialize demoMs demoOracleOk demoWriter demoBatch =
      { result := .success,
        writer := { demoWriter with token := demoToken1 },
        calls := [mkInput (makeEvents demoSerialize demoMs demoBatch) demoWriter
          (goTokenPtr demoWriter.token)],
        removes := [], prints := [] } := by
  rw [writeMessageBatch_run demoSerialize demoMs demoOracleOk demoWriter demoBatch
    (by decide) (by decide)]
  rw [putLoop.eq_def]
  have ho : demoOracleOk 1 (mkInput (makeEvents demoSerialize demoMs demoBatch)
      demoWriter (goTokenPtr demoWriter.token)) = .ok (some demoToken1) := rfl
  rw [ho]
  rfl

/-- Witness for C5: first call absent token; second `Append` passes the
token returned by the first. -/
theorem c5_token_continuity_witness :
    ((writeMessageBatch demoSerialize demoMs demoOracleOk demoWriter demoBatch).calls.head?).map
        (fun c => c.sequenceToken) = some none ∧
    ((writeMessageBatch demoSerialize demoMs demoOracleOk
        (writeMessageBatch demoSerialize demoMs demoOracleOk demoWriter demoBatch).writer
        demoBatch).calls.head?).map (fun c => c.sequenceToken) = some (some demoToken1) := by
  have h := c5_token_continuity demoSerialize demoMs demoOracleOk demoOracleOk
    demoWriter demoBatch demoBatch (by decide) (by decide) (by decide)
    (by rw [demo_success_run])
  obtain ⟨hfst, habs, t, last, h1, h2, h3, h4, h5⟩ := h
  have ht : t = some demoToken1 := by
    have h2' := h2
    unfold demoOracleOk at h2'
    cases h2'
    rfl
  refine ⟨habs rfl, h5 demoToken1 ht (by decide)⟩

/-- Claim C1, counterexample: on the spec's example rejection text the
parser does NOT extract `ABC123` — that message's first line has four
colon-delimited fields and the code takes the third. -/
theorem c1_counterexample :
    extractExpectedToken exampleRejectionMsg ≠ some claimedExampleToken := by
  decide

/-- Claim C1 as amended: for the rejection text
`InvalidSequenceTokenException: fooError: expected sequence token is: ABC123`
the parser extracts the token `expected sequence token is` (the trimmed
third colon-delimited field; `ABC123` is the fourth), and an `Append`
whose first transport attempt fails with that rejection retries passing
exactly that extracted token as the sequence token; if the retry succeeds,
`Append` returns success with no error observed by the caller. -/
theorem c1_stale_token_recovery (serialize : Message → String)
    (ms : Int → Int) (o : TransportOracle) (w : Writer)
    (batch : List Message) (next : Option String)
    (hb : batch ≠ []) (hv : w.parentValid = true)
    (h1 : ∀ inp, o 1 inp = .err exampleRejectionMsg)
    (h2 : ∀ inp, o 2 inp = .ok next) :
    extractExpectedToken exampleRejectionMsg = some exampleExtractedToken ∧
    (writeMessageBatch serialize ms o w batch).result = .success ∧
    (writeMessageBatch serialize ms o w batch).calls.length = 2 ∧
    ((writeMessageBatch serialize ms o w batch).calls.getD 1 default).sequenceToken =
      some exampleExtractedToken ∧
    (writeMessageBatch serialize ms o w batch).writer.token = next.getD "" := by
  have hb' : batch.length ≠ 0 := by
    simpa [List.length_eq_zero] using hb
  have hex : extractExpectedToken exampleRejectionMsg = some exampleExtractedToken := by
    decide
  refine ⟨hex, ?_⟩
  rw [writeMessageBatch_run serialize ms o w batch hb' hv]
  rw [putLoop.eq_def]
  simp only [h1]
  rw [dif_pos ⟨by omega, by rw [hex]; rfl⟩]
  rw [hex]
  rw [putLoop.eq_def]
  simp only [h2]
  simp [mkInput]

/-- Witness for amended C1: a transport that rejects attempt 1 with the
example text and accepts attempt 2. -/
theorem c1_stale_token_recovery_witness :
    extractExpectedToken exampleRejectionMsg = some exampleExtractedToken ∧
    (writeMessageBatch demoSerialize demoMs demoOracleRejThenOk demoWriter demoBatch).result =
      .success ∧
    ((writeMessageBatch demoSerialize demoMs demoOracleRejThenOk demoWriter
        demoBatch).calls.getD 1 default).sequenceToken = some exampleExtractedToken := by
  have h := c1_stale_token_recovery demoSerialize demoMs demoOracleRejThenOk demoWriter
    demoBatch (some demoToken1) (by decide) (by decide)
    (fun inp => rfl) (fun inp => rfl)
  exact ⟨h.1, h.2.1, h.2.2.2.1⟩

end EcsLogs
